import Mathlib

/-!
# Verification of the ffplayout ingest server (`src/input/ingest.rs`)

A shallow embedding of the ingest module: the pure filter-string builders
(`overlay`, `audio_filter`, and the filter assembly at the top of
`ingest_server`) are translated to Lean string functions, and the
supervision loop of `ingest_server` is translated to an executable
interpreter over an explicit environment (the sequence of subprocess
instances, the reads each instance delivers, the success of each channel
send, and external termination requests).  Theorems about these
definitions settle the specified properties.
-/

namespace Ingest

/-- Modelled from the spec: the `processing` section of the Configuration
Snapshot (`GlobalConfig.processing`), whose defining module is outside the
shown sources.  Fields are those read by `ingest.rs`: video parameters,
overlay parameters, audio parameters.  Numeric display values are carried
as the strings their `Display` rendering produces; the volume multiplier,
which the source compares against `1.0` with exact equality, is carried as
a rational number. -/
structure ProcessingConfig where
  fps : String
  width : String
  height : String
  aspect : String
  add_logo : Bool
  logo : String
  logo_opacity : String
  logo_filter : String
  add_loudnorm : Bool
  loud_i : String
  loud_tp : String
  loud_lra : String
  volume : ℚ
deriving DecidableEq

/-- Modelled from the spec: the Configuration Snapshot (`GlobalConfig`),
restricted to the parts the claims need. -/
structure GlobalConfig where
  processing : ProcessingConfig
deriving DecidableEq

/-- Rendering of the volume multiplier, standing for Rust's `Display` of
the float in `format!(",volume={}", ...)`.  The claims never depend on the
rendered digits, only on the clause's presence. -/
def volumeStr (q : ℚ) : String :=
  toString q.num ++ "/" ++ toString q.den

/-- `overlay` from `ingest.rs` lines 17-33.  The filesystem check
`Path::new(&config.processing.logo).is_file()` is an environment oracle,
passed as the function `is_file`. -/
def overlay (is_file : String → Bool) (config : GlobalConfig) : String :=
  if config.processing.add_logo && is_file config.processing.logo then
    "[v];movie=" ++ config.processing.logo
      ++ ",loop=loop=-1:size=1:start=0,format=rgba,colorchannelmixer=aa="
      ++ config.processing.logo_opacity
      ++ "[l];[v][l]" ++ config.processing.logo_filter ++ ":shortest=1"
  else
    ""

/-- `audio_filter` from `ingest.rs` lines 38-58. -/
def audio_filter (config : GlobalConfig) : String :=
  let chain0 := ";[0:a]afade=in:st=0:d=0.5"
  let chain1 :=
    if config.processing.add_loudnorm then
      chain0 ++ ",loudnorm=I=" ++ config.processing.loud_i
        ++ ":TP=" ++ config.processing.loud_tp
        ++ ":LRA=" ++ config.processing.loud_lra
    else chain0
  let chain2 :=
    if config.processing.volume ≠ 1 then
      chain1 ++ ",volume=" ++ volumeStr config.processing.volume
    else chain1
  chain2 ++ "[aout1]"

/-- The always-present video stage built at `ingest.rs` lines 70-76. -/
def videoStage (config : GlobalConfig) : String :=
  "[0:v]fps=" ++ config.processing.fps
    ++ ",scale=" ++ config.processing.width ++ ":" ++ config.processing.height
    ++ ",setdar=dar=" ++ config.processing.aspect
    ++ ",fade=in:st=0:d=0.5"

/-- The complete `-filter_complex` string assembled in `ingest_server`,
lines 70-80: video stage, then the overlay chain, then the video output
pad, then the audio chain. -/
def buildFilter (is_file : String → Bool) (config : GlobalConfig) : String :=
  videoStage config ++ overlay is_file config ++ "[vout1]" ++ audio_filter config

/-- The single overlay compositing clause produced when the overlay is
active: `[v][l]{logo_filter}:shortest=1` (`ingest.rs` line 29). -/
def compositingClause (config : GlobalConfig) : String :=
  "[v][l]" ++ config.processing.logo_filter ++ ":shortest=1"

/-- The audio chain up to (excluding) the optional volume clause:
fade-in plus the optional loudness normalization (`ingest.rs` lines
39-49). -/
def audioPre (config : GlobalConfig) : String :=
  if config.processing.add_loudnorm then
    ";[0:a]afade=in:st=0:d=0.5,loudnorm=I=" ++ config.processing.loud_i
      ++ ":TP=" ++ config.processing.loud_tp
      ++ ":LRA=" ++ config.processing.loud_lra
  else ";[0:a]afade=in:st=0:d=0.5"

/-! ## The supervision loop of `ingest_server` (lines 110-172)

The loop interacts with its environment through: the result of each
`Command::spawn`, the sequence of results returned by
`ingest_reader.read`, the success of each `ingest_sender.send`, the
results of `proc_control.wait` and `error_reader_thread.join`, and an
external controller that may store `true` into
`proc_control.is_terminated` at any time.  The flag only matters where
the code reads it — the poll at line 167 — so an external store is
modelled per instance as "set before that instance's poll". -/

/-- One result of `ingest_reader.read(&mut buffer[..])` (line 131):
either `Ok(length)` carrying the `data` bytes written into the buffer
prefix (so `length = data.length`), or `Err`.  For an `ok` read with
non-empty data, `sendOk` records whether the subsequent
`ingest_sender.send` succeeds; it is irrelevant otherwise. -/
inductive ReadEvent where
  | ok (data : List Nat) (sendOk : Bool)
  | err
deriving DecidableEq

/-- The environment of one iteration of the `'ingest_iter` loop: whether
`Command::spawn` succeeds, the reads the subprocess's stdout delivers,
whether `proc_control.wait` and the stderr-thread join succeed (their
failures are only logged), and whether the external controller stores
`true` into `is_terminated` before this iteration's poll at line 167. -/
structure InstanceSpec where
  spawnOk : Bool
  reads : List ReadEvent
  waitOk : Bool
  joinOk : Bool
  extTerm : Bool
deriving DecidableEq

/-- Observable actions of the supervisor, in program order.
`send len buf` is a successful `ingest_sender.send((len, buffer))`;
`setRunning b` is `proc_control.server_is_running.store(b)`;
`setTerminated` is the store at line 148 (the only place the supervisor
itself sets `is_terminated`); `waitProc` is `proc_control.wait(Ingest)`;
`joinDrain` is `error_reader_thread.join()`. -/
inductive Event where
  | spawn
  | spawnFail
  | send (len : Nat) (buf : List Nat)
  | setRunning (b : Bool)
  | setTerminated
  | waitProc
  | joinDrain
deriving DecidableEq

/-- How the inner read loop (lines 130-154) was left. -/
inductive ExitKind where
  | eof
  | readErr
  | sendFail
  | blocked
deriving DecidableEq

/-- The inner read loop, lines 130-154.  State: the reusable buffer and
the local `is_running` flag.  Returns the events emitted, the final
buffer, and the exit kind.  An exhausted read list means the program is
still blocked inside `read` (`ExitKind.blocked`): the environment
specified no further reads. -/
def readLoop : List ReadEvent → List Nat → Bool → List Event × List Nat × ExitKind
  | [], buf, _ => ([], buf, .blocked)
  | .err :: _, buf, _ => ([], buf, .readErr)
  | .ok data s :: rest, buf, isRun =>
    let buf1 := data ++ buf.drop data.length
    let evs1 : List Event := if isRun then [] else [.setRunning true]
    if data.length > 0 then
      if s then
        let out := readLoop rest buf1 true
        (evs1 ++ .send data.length buf1 :: out.1, out.2.1, out.2.2)
      else
        (evs1 ++ [.setTerminated], buf1, .sendFail)
    else
      (evs1, buf1, .eof)

/-- How a run of `ingest_server` came out: `ok` is `return Ok(())`;
`panicked` is the `panic!` at line 119; `blocked` means the run is stuck
in a `read` the environment never answers; `outOfSpecs` means the run is
still looping and the environment specified no further instance. -/
inductive RunResult where
  | ok
  | panicked
  | blocked
  | outOfSpecs
deriving DecidableEq

/-- Result of running the supervision loop: the event trace, how the run
ended, and the final value of `proc_control.is_terminated`. -/
structure RunOut where
  events : List Event
  result : RunResult
  termFlag : Bool
deriving DecidableEq

/-- The `'ingest_iter` loop, lines 110-170, over a list of instance
environments; `term` is the current value of `is_terminated`, `buf` the
reusable buffer.  Mirrors the source: a failed spawn panics (lines
117-120, no flag store, no retry); a send failure stores `true` into
`is_terminated` and breaks out of the whole loop (lines 148-149),
skipping the `store(false)`, `wait` and `join` of lines 156-165; on the
other exits of the read loop the supervisor stores `false`, waits,
joins, then polls `is_terminated` (lines 156-169). -/
def runServer : List InstanceSpec → Bool → List Nat → RunOut
  | [], term, _ => ⟨[], .outOfSpecs, term⟩
  | spec :: rest, term, buf =>
    if spec.spawnOk then
      let inner := readLoop spec.reads buf false
      match inner.2.2 with
      | .sendFail => ⟨.spawn :: inner.1, .ok, true⟩
      | .blocked => ⟨.spawn :: inner.1, .blocked, term⟩
      | _ =>
        let term1 := term || spec.extTerm
        let evs1 := .spawn :: inner.1 ++ [.setRunning false, .waitProc, .joinDrain]
        if term1 then ⟨evs1, .ok, term1⟩
        else
          let out := runServer rest term1 inner.2.1
          ⟨evs1 ++ out.events, out.result, out.termFlag⟩
    else
      ⟨[.spawnFail], .panicked, term⟩

/-- `ingest_server`, entered with the buffer `[0u8; 65088]` of line 69
and with `is_terminated` in its initial (unset) state. -/
def ingest_server (specs : List InstanceSpec) : RunOut :=
  runServer specs false (List.replicate 65088 0)

/-- Trace discipline for the stderr drain thread: scans an event list
and checks that no second subprocess is spawned while the previous
instance's drain thread is still unjoined.  The flag carries "a spawn
happened and its drain thread has not been joined yet". -/
def joinedBetween : List Event → Bool → Bool
  | [], _ => true
  | Event.spawn :: r, openSpawn => !openSpawn && joinedBetween r true
  | Event.joinDrain :: r, _ => joinedBetween r false
  | _ :: r, st => joinedBetween r st

/-- A sample configuration snapshot used to instantiate theorems. -/
def sampleProc : ProcessingConfig :=
  ⟨"25", "1024", "576", "1.778", true, "logo.png", "0.7",
    "overlay=W-w-12:12", true, "-18", "-1.5", "11", 1⟩

/-! ## Helper lemmas about the read loop -/

theorem getLast?_append_right (l1 l2 : List Event) (h : l2 ≠ []) :
    (l1 ++ l2).getLast? = l2.getLast? := by
  rw [List.getLast?_append]
  cases l2 with
  | nil => simp at h
  | cons x xs => simp [List.getLast?_cons]

/-- The read loop never stores `false` into `server_is_running`; that
store is only performed by the outer loop (line 157). -/
theorem readLoop_no_setRunning_false (reads : List ReadEvent) (buf : List Nat)
    (isRun : Bool) : Event.setRunning false ∉ (readLoop reads buf isRun).1 := by
  induction reads generalizing buf isRun with
  | nil => simp [readLoop]
  | cons e rest ih =>
    cases e with
    | err => simp [readLoop]
    | ok data s =>
      simp only [readLoop]
      split
      · split
        · simp only [List.mem_append, List.mem_cons]
          rintro (h | h | h)
          · split at h <;> simp_all
          · exact Event.noConfusion h
          · exact ih _ _ h
        · simp only [List.mem_append, List.mem_cons]
          rintro (h | h)
          · split at h <;> simp_all
          · simp_all
      · intro h
        split at h <;> simp_all

/-- Once the local `is_running` is `true`, the read loop no longer stores
`true` into `server_is_running`. -/
theorem readLoop_true_no_setRunning (reads : List ReadEvent) (buf : List Nat) :
    Event.setRunning true ∉ (readLoop reads buf true).1 := by
  induction reads generalizing buf with
  | nil => simp [readLoop]
  | cons e rest ih =>
    cases e with
    | err => simp [readLoop]
    | ok data s =>
      simp only [readLoop]
      split
      · split
        · simp only [if_pos, List.nil_append, List.mem_cons]
          rintro (h | h)
          · exact Event.noConfusion h
          · exact ih _ h
        · simp
      · simp

/-- The read loop never spawns a subprocess. -/
theorem readLoop_no_spawn (reads : List ReadEvent) (buf : List Nat)
    (isRun : Bool) : Event.spawn ∉ (readLoop reads buf isRun).1 := by
  induction reads generalizing buf isRun with
  | nil => simp [readLoop]
  | cons e rest ih =>
    cases e with
    | err => simp [readLoop]
    | ok data s =>
      simp only [readLoop]
      split
      · split
        · simp only [List.mem_append, List.mem_cons]
          rintro (h | h | h)
          · split at h <;> simp_all
          · exact Event.noConfusion h
          · exact ih _ _ h
        · simp only [List.mem_append, List.mem_cons]
          rintro (h | h)
          · split at h <;> simp_all
          · simp_all
      · intro h
        split at h <;> simp_all

/-- The read loop never joins the stderr drain thread. -/
theorem readLoop_no_joinDrain (reads : List ReadEvent) (buf : List Nat)
    (isRun : Bool) : Event.joinDrain ∉ (readLoop reads buf isRun).1 := by
  induction reads generalizing buf isRun with
  | nil => simp [readLoop]
  | cons e rest ih =>
    cases e with
    | err => simp [readLoop]
    | ok data s =>
      simp only [readLoop]
      split
      · split
        · simp only [List.mem_append, List.mem_cons]
          rintro (h | h | h)
          · split at h <;> simp_all
          · exact Event.noConfusion h
          · exact ih _ _ h
        · simp only [List.mem_append, List.mem_cons]
          rintro (h | h)
          · split at h <;> simp_all
          · simp_all
      · intro h
        split at h <;> simp_all

/-- Unfolding equation: empty read list, the loop is blocked in `read`. -/
theorem readLoop_nil (buf : List Nat) (isRun : Bool) :
    readLoop [] buf isRun = ([], buf, ExitKind.blocked) := rfl

/-- Unfolding equation: a read error breaks out of the loop (line 135). -/
theorem readLoop_err (rest : List ReadEvent) (buf : List Nat) (isRun : Bool) :
    readLoop (.err :: rest) buf isRun = ([], buf, ExitKind.readErr) := rfl

/-- Unfolding equation: a zero-byte read flips `server_is_running` (if
this was the first successful read) and breaks (lines 139-142, 152). -/
theorem readLoop_ok_nil (s : Bool) (rest : List ReadEvent) (buf : List Nat)
    (isRun : Bool) :
    readLoop (.ok [] s :: rest) buf isRun =
      ((if isRun then [] else [.setRunning true]), buf, ExitKind.eof) := rfl

/-- Unfolding equation: a non-empty read whose send succeeds. -/
theorem readLoop_ok_send (data : List Nat) (rest : List ReadEvent)
    (buf : List Nat) (isRun : Bool) (h : data ≠ []) :
    readLoop (.ok data true :: rest) buf isRun =
      ((if isRun then [] else [.setRunning true]) ++
          .send data.length (data ++ buf.drop data.length) ::
            (readLoop rest (data ++ buf.drop data.length) true).1,
        (readLoop rest (data ++ buf.drop data.length) true).2.1,
        (readLoop rest (data ++ buf.drop data.length) true).2.2) := by
  simp [readLoop, List.length_pos.mpr h]

/-- Unfolding equation: a non-empty read whose send fails; the flag is
stored and the whole supervision loop is left (lines 145-149). -/
theorem readLoop_ok_sendFail (data : List Nat) (rest : List ReadEvent)
    (buf : List Nat) (isRun : Bool) (h : data ≠ []) :
    readLoop (.ok data false :: rest) buf isRun =
      ((if isRun then [] else [.setRunning true]) ++ [.setTerminated],
        data ++ buf.drop data.length, ExitKind.sendFail) := by
  simp [readLoop, List.length_pos.mpr h]

/-- The store into `is_terminated` at line 148 happens during the read
loop exactly when the loop exits through the send-failure path. -/
theorem readLoop_setTerminated_iff (reads : List ReadEvent) (buf : List Nat)
    (isRun : Bool) :
    Event.setTerminated ∈ (readLoop reads buf isRun).1 ↔
      (readLoop reads buf isRun).2.2 = ExitKind.sendFail := by
  induction reads generalizing buf isRun with
  | nil => simp [readLoop_nil]
  | cons e rest ih =>
    cases e with
    | err => simp [readLoop_err]
    | ok data s =>
      rcases data with _ | ⟨x, xs⟩
      · cases isRun <;> simp [readLoop_ok_nil]
      · cases s
        · rw [readLoop_ok_sendFail _ _ _ _ (by simp)]
          cases isRun <;> simp
        · rw [readLoop_ok_send _ _ _ _ (by simp)]
          cases isRun <;> simp [ih]

/-- When the read loop exits through the send-failure path, its last
emitted event is the `is_terminated` store. -/
theorem readLoop_sendFail_getLast (reads : List ReadEvent) (buf : List Nat)
    (isRun : Bool) (h : (readLoop reads buf isRun).2.2 = ExitKind.sendFail) :
    (readLoop reads buf isRun).1.getLast? = some Event.setTerminated := by
  induction reads generalizing buf isRun with
  | nil => simp [readLoop_nil] at h
  | cons e rest ih =>
    cases e with
    | err => simp [readLoop_err] at h
    | ok data s =>
      rcases data with _ | ⟨x, xs⟩
      · rw [readLoop_ok_nil] at h
        simp at h
      · cases s
        · rw [readLoop_ok_sendFail _ _ _ _ (by simp)]
          rw [getLast?_append_right]
          · rfl
          · simp
        · rw [readLoop_ok_send _ _ _ _ (by simp)] at h ⊢
          have h2 := ih ((x :: xs) ++ buf.drop (x :: xs).length) true h
          rw [getLast?_append_right]
          · rw [List.getLast?_cons, h2]
            cases hl : (readLoop rest ((x :: xs) ++ buf.drop (x :: xs).length) true).1 with
            | nil => rw [hl] at h2; simp at h2
            | cons y ys => simp
          · simp

/-- Every chunk the read loop sends has a positive length, and its
length is bounded by the lengths of the reads the environment delivered
(the `Read` contract: a read fills at most the 65088-byte buffer). -/
theorem readLoop_send_len (reads : List ReadEvent) (buf : List Nat)
    (isRun : Bool)
    (hb : ∀ d s, ReadEvent.ok d s ∈ reads → d.length ≤ 65088) :
    ∀ l bb, Event.send l bb ∈ (readLoop reads buf isRun).1 →
      0 < l ∧ l ≤ 65088 := by
  induction reads generalizing buf isRun with
  | nil => simp [readLoop_nil]
  | cons e rest ih =>
    cases e with
    | err => simp [readLoop_err]
    | ok data s =>
      have hd : data.length ≤ 65088 := hb data s (by simp)
      have hrest : ∀ d s, ReadEvent.ok d s ∈ rest → d.length ≤ 65088 :=
        fun d s hm => hb d s (List.mem_cons_of_mem _ hm)
      rcases data with _ | ⟨x, xs⟩
      · rw [readLoop_ok_nil]
        intro l bb hm
        cases isRun <;> simp at hm
      · cases s
        · rw [readLoop_ok_sendFail _ _ _ _ (by simp)]
          intro l bb hm
          cases isRun <;> simp at hm
        · rw [readLoop_ok_send _ _ _ _ (by simp)]
          intro l bb hm
          rcases List.mem_append.mp hm with h1 | h1
          · cases isRun <;> simp at h1
          · rcases List.mem_cons.mp h1 with h2 | h2
            · cases h2
              exact ⟨by simp, hd⟩
            · exact ih _ _ hrest l bb h2

/-- The read loop stores `true` into `server_is_running` at most once. -/
theorem readLoop_setRunning_once (reads : List ReadEvent) (buf : List Nat) :
    ((readLoop reads buf false).1).count (Event.setRunning true) ≤ 1 := by
  cases reads with
  | nil => simp [readLoop_nil]
  | cons e rest =>
    cases e with
    | err => simp [readLoop_err]
    | ok data s =>
      rcases data with _ | ⟨x, xs⟩
      · simp [readLoop_ok_nil]
      · cases s
        · rw [readLoop_ok_sendFail _ _ _ _ (by simp)]
          simp [List.count_cons]
        · rw [readLoop_ok_send _ _ _ _ (by simp)]
          have h0 : ∀ b : List Nat,
              ((readLoop rest b true).1).count (Event.setRunning true) = 0 :=
            fun b => List.count_eq_zero.mpr (readLoop_true_no_setRunning rest b)
          simp [List.count_cons, List.count_append, h0]

/-- When the first read of an instance succeeds (empty or not), the very
first event of the read loop is the `server_is_running := true` store. -/
theorem readLoop_head_ok (d : List Nat) (s : Bool) (rest : List ReadEvent)
    (buf : List Nat) :
    ((readLoop (.ok d s :: rest) buf false).1).head? =
      some (Event.setRunning true) := by
  rcases d with _ | ⟨x, xs⟩
  · simp [readLoop_ok_nil]
  · cases s
    · rw [readLoop_ok_sendFail _ _ _ _ (by simp)]
      rfl
    · rw [readLoop_ok_send _ _ _ _ (by simp)]
      rfl

/-! ## Unfolding equations for the supervision loop -/

/-- Environment exhausted: the loop would keep running. -/
theorem runServer_nil (term : Bool) (buf : List Nat) :
    runServer [] term buf = ⟨[], .outOfSpecs, term⟩ := rfl

/-- A failed `Command::spawn`: logged and `panic!` (lines 117-120).  No
store into `is_terminated`, no retry, nothing after it. -/
theorem runServer_spawnFail (spec : InstanceSpec) (rest : List InstanceSpec)
    (term : Bool) (buf : List Nat) (h : spec.spawnOk = false) :
    runServer (spec :: rest) term buf = ⟨[.spawnFail], .panicked, term⟩ := by
  simp [runServer, h]

/-- A send failure inside the read loop: `is_terminated := true` and
`break 'ingest_iter` (lines 148-149), skipping the stores, `wait` and
`join` of lines 156-165; `ingest_server` then returns `Ok(())`. -/
theorem runServer_sendFail (spec : InstanceSpec) (rest : List InstanceSpec)
    (term : Bool) (buf : List Nat) (h : spec.spawnOk = true)
    (h2 : (readLoop spec.reads buf false).2.2 = ExitKind.sendFail) :
    runServer (spec :: rest) term buf =
      ⟨.spawn :: (readLoop spec.reads buf false).1, .ok, true⟩ := by
  simp only [runServer, h, if_true]
  rw [h2]

/-- A read loop stuck in `read`: the run is blocked. -/
theorem runServer_blocked (spec : InstanceSpec) (rest : List InstanceSpec)
    (term : Bool) (buf : List Nat) (h : spec.spawnOk = true)
    (h2 : (readLoop spec.reads buf false).2.2 = ExitKind.blocked) :
    runServer (spec :: rest) term buf =
      ⟨.spawn :: (readLoop spec.reads buf false).1, .blocked, term⟩ := by
  simp only [runServer, h, if_true]
  rw [h2]

/-- Clean or read-error exit with the termination flag observed set at
line 167: store `false`, wait, join, break; `ingest_server` returns
`Ok(())` and no further subprocess is spawned. -/
theorem runServer_exit_term (spec : InstanceSpec) (rest : List InstanceSpec)
    (term : Bool) (buf : List Nat) (h : spec.spawnOk = true)
    (h2 : (readLoop spec.reads buf false).2.2 = ExitKind.eof ∨
      (readLoop spec.reads buf false).2.2 = ExitKind.readErr)
    (h3 : (term || spec.extTerm) = true) :
    runServer (spec :: rest) term buf =
      ⟨.spawn :: ((readLoop spec.reads buf false).1 ++
        [.setRunning false, .waitProc, .joinDrain]), .ok, true⟩ := by
  simp only [runServer, h, if_true]
  rcases h2 with h2 | h2 <;> rw [h2] <;> simp [h3]

/-- Clean or read-error exit with the termination flag observed unset at
line 167: store `false`, wait, join, then restart with the next
instance. -/
theorem runServer_exit_cont (spec : InstanceSpec) (rest : List InstanceSpec)
    (term : Bool) (buf : List Nat) (h : spec.spawnOk = true)
    (h2 : (readLoop spec.reads buf false).2.2 = ExitKind.eof ∨
      (readLoop spec.reads buf false).2.2 = ExitKind.readErr)
    (h3 : (term || spec.extTerm) = false) :
    runServer (spec :: rest) term buf =
      ⟨(.spawn :: ((readLoop spec.reads buf false).1 ++
          [.setRunning false, .waitProc, .joinDrain])) ++
            (runServer rest false (readLoop spec.reads buf false).2.1).events,
        (runServer rest false (readLoop spec.reads buf false).2.1).result,
        (runServer rest false (readLoop spec.reads buf false).2.1).termFlag⟩ := by
  simp only [runServer, h, if_true]
  rcases h2 with h2 | h2 <;> rw [h2] <;> simp [h3]


/-- A spawned instance always begins its trace with the spawn event. -/
theorem runServer_spawnOk_head (spec : InstanceSpec) (rest : List InstanceSpec)
    (term : Bool) (buf : List Nat) (h : spec.spawnOk = true) :
    ∃ tl, (runServer (spec :: rest) term buf).events = Event.spawn :: tl := by
  cases hk : (readLoop spec.reads buf false).2.2 with
  | eof =>
    cases ht : (term || spec.extTerm) with
    | true => rw [runServer_exit_term spec rest term buf h (Or.inl hk) ht]; exact ⟨_, rfl⟩
    | false =>
      rw [runServer_exit_cont spec rest term buf h (Or.inl hk) ht]
      exact ⟨_, rfl⟩
  | readErr =>
    cases ht : (term || spec.extTerm) with
    | true => rw [runServer_exit_term spec rest term buf h (Or.inr hk) ht]; exact ⟨_, rfl⟩
    | false =>
      rw [runServer_exit_cont spec rest term buf h (Or.inr hk) ht]
      exact ⟨_, rfl⟩
  | sendFail => rw [runServer_sendFail spec rest term buf h hk]; exact ⟨_, rfl⟩
  | blocked => rw [runServer_blocked spec rest term buf h hk]; exact ⟨_, rfl⟩

/-- C1: if a send on the output channel fails for any chunk during the
execution (the `is_terminated` store at line 148 is performed exactly
then), the supervisor sets the termination flag, the whole supervision
loop is exited with that store as the very last action — no further
subprocess is spawned, nothing further happens regardless of remaining
buffered data — and `ingest_server` returns `Ok`. -/
theorem ingest_send_failure_fatal (specs : List InstanceSpec) (term : Bool)
    (buf : List Nat)
    (h : Event.setTerminated ∈ (runServer specs term buf).events) :
    (runServer specs term buf).termFlag = true ∧
      (runServer specs term buf).result = RunResult.ok ∧
      (runServer specs term buf).events.getLast? = some Event.setTerminated := by
  induction specs generalizing term buf with
  | nil => rw [runServer_nil] at h; simp at h
  | cons spec rest ih =>
    cases hs : spec.spawnOk with
    | false =>
      rw [runServer_spawnFail spec rest term buf hs] at h
      simp at h
    | true =>
      cases hk : (readLoop spec.reads buf false).2.2 with
      | sendFail =>
        rw [runServer_sendFail spec rest term buf hs hk]
        have hlast := readLoop_sendFail_getLast spec.reads buf false hk
        refine ⟨rfl, rfl, ?_⟩
        have hne : (readLoop spec.reads buf false).1 ≠ [] := by
          intro h0
          rw [h0] at hlast
          simp at hlast
        exact (getLast?_append_right [Event.spawn] _ hne).trans hlast
      | blocked =>
        rw [runServer_blocked spec rest term buf hs hk] at h
        have h2 : Event.setTerminated ∈ (readLoop spec.reads buf false).1 := by
          simpa using h
        rw [readLoop_setTerminated_iff] at h2
        rw [h2] at hk
        exact ExitKind.noConfusion hk
      | eof =>
        cases ht : (term || spec.extTerm) with
        | true =>
          rw [runServer_exit_term spec rest term buf hs (Or.inl hk) ht] at h
          have h2 : Event.setTerminated ∈ (readLoop spec.reads buf false).1 := by
            simpa using h
          rw [readLoop_setTerminated_iff] at h2
          rw [h2] at hk
          exact ExitKind.noConfusion hk
        | false =>
          rw [runServer_exit_cont spec rest term buf hs (Or.inl hk) ht] at h ⊢
          have h2 : Event.setTerminated ∈ (readLoop spec.reads buf false).1 ∨
              Event.setTerminated ∈
                (runServer rest false (readLoop spec.reads buf false).2.1).events := by
            simpa using h
          rcases h2 with h2 | h2
          · rw [readLoop_setTerminated_iff] at h2
            rw [h2] at hk
            exact ExitKind.noConfusion hk
          · have h3 := ih false (readLoop spec.reads buf false).2.1 h2
            refine ⟨h3.1, h3.2.1, ?_⟩
            have hne : (runServer rest false
                (readLoop spec.reads buf false).2.1).events ≠ [] := by
              intro h0
              rw [h0] at h2
              simp at h2
            exact (getLast?_append_right _ _ hne).trans h3.2.2
      | readErr =>
        cases ht : (term || spec.extTerm) with
        | true =>
          rw [runServer_exit_term spec rest term buf hs (Or.inr hk) ht] at h
          have h2 : Event.setTerminated ∈ (readLoop spec.reads buf false).1 := by
            simpa using h
          rw [readLoop_setTerminated_iff] at h2
          rw [h2] at hk
          exact ExitKind.noConfusion hk
        | false =>
          rw [runServer_exit_cont spec rest term buf hs (Or.inr hk) ht] at h ⊢
          have h2 : Event.setTerminated ∈ (readLoop spec.reads buf false).1 ∨
              Event.setTerminated ∈
                (runServer rest false (readLoop spec.reads buf false).2.1).events := by
            simpa using h
          rcases h2 with h2 | h2
          · rw [readLoop_setTerminated_iff] at h2
            rw [h2] at hk
            exact ExitKind.noConfusion hk
          · have h3 := ih false (readLoop spec.reads buf false).2.1 h2
            refine ⟨h3.1, h3.2.1, ?_⟩
            have hne : (runServer rest false
                (readLoop spec.reads buf false).2.1).events ≠ [] := by
              intro h0
              rw [h0] at h2
              simp at h2
            exact (getLast?_append_right _ _ hne).trans h3.2.2

/-- Witness for C1: one instance whose first chunk's send fails. -/
theorem ingest_send_failure_fatal_witness :
    Event.setTerminated ∈
        (runServer [⟨true, [.ok [1] false], true, true, false⟩] false
          (List.replicate 65088 0)).events ∧
      (runServer [⟨true, [.ok [1] false], true, true, false⟩] false
          (List.replicate 65088 0)).termFlag = true ∧
      (runServer [⟨true, [.ok [1] false], true, true, false⟩] false
          (List.replicate 65088 0)).result = RunResult.ok ∧
      (runServer [⟨true, [.ok [1] false], true, true, false⟩] false
          (List.replicate 65088 0)).events.getLast? = some Event.setTerminated :=
  ⟨by decide,
    ingest_send_failure_fatal [⟨true, [.ok [1] false], true, true, false⟩] false
      (List.replicate 65088 0) (by decide)⟩


/-- C2: if the termination flag is set before the current subprocess
instance exits (here: the external controller sets it during the
instance, or it was already set), then after that instance is reaped
(`wait` at line 159, on the clean-EOF or read-error exit of the read
loop) the supervisor spawns no further subprocess and `ingest_server`
returns `Ok`. -/
theorem ingest_term_before_exit_no_restart (spec : InstanceSpec)
    (rest : List InstanceSpec) (term : Bool) (buf : List Nat)
    (hs : spec.spawnOk = true)
    (hterm : term = true ∨ spec.extTerm = true)
    (hexit : (readLoop spec.reads buf false).2.2 = ExitKind.eof ∨
      (readLoop spec.reads buf false).2.2 = ExitKind.readErr) :
    (runServer (spec :: rest) term buf).result = RunResult.ok ∧
      (runServer (spec :: rest) term buf).termFlag = true ∧
      Event.waitProc ∈ (runServer (spec :: rest) term buf).events ∧
      (runServer (spec :: rest) term buf).events.count Event.spawn = 1 := by
  have ht : (term || spec.extTerm) = true := by
    rcases hterm with h | h <;> simp [h]
  rw [runServer_exit_term spec rest term buf hs hexit ht]
  refine ⟨rfl, rfl, by simp, ?_⟩
  have h0 : ((readLoop spec.reads buf false).1).count Event.spawn = 0 :=
    List.count_eq_zero.mpr (readLoop_no_spawn spec.reads buf false)
  simp [List.count_cons, List.count_append, h0]

/-- Witness for C2: the external controller requests termination while
the only instance drains; one spawn, a `wait`, then a successful
return. -/
theorem ingest_term_before_exit_no_restart_witness :
    (⟨true, [ReadEvent.ok [] true], true, true, true⟩ : InstanceSpec).spawnOk = true ∧
      (runServer [⟨true, [.ok [] true], true, true, true⟩,
          ⟨true, [], true, true, false⟩] false (List.replicate 65088 0)).result =
        RunResult.ok ∧
      (runServer [⟨true, [.ok [] true], true, true, true⟩,
          ⟨true, [], true, true, false⟩] false (List.replicate 65088 0)).events.count
        Event.spawn = 1 :=
  ⟨rfl,
    (ingest_term_before_exit_no_restart ⟨true, [.ok [] true], true, true, true⟩
      [⟨true, [], true, true, false⟩] false (List.replicate 65088 0) rfl
      (Or.inr rfl) (Or.inl (by decide))).1,
    (ingest_term_before_exit_no_restart ⟨true, [.ok [] true], true, true, true⟩
      [⟨true, [], true, true, false⟩] false (List.replicate 65088 0) rfl
      (Or.inr rfl) (Or.inl (by decide))).2.2.2⟩

/-- C3: an instance that delivers exactly three non-empty reads followed
by a zero-byte read, with the termination flag unset, makes the
supervisor send exactly three chunks, in read order and with the buffer
contents produced by each read over the reused buffer, then store
`server_is_running := false`, `wait` for the subprocess, join the drain
thread, and spawn the next subprocess instance. -/
theorem ingest_three_chunks_restart (d1 d2 d3 : List Nat) (s4 w j : Bool)
    (spec2 : InstanceSpec) (rest : List InstanceSpec) (buf : List Nat)
    (h1 : d1 ≠ []) (h2 : d2 ≠ []) (h3 : d3 ≠ [])
    (hs2 : spec2.spawnOk = true) :
    ∃ tl,
      (runServer (⟨true, [.ok d1 true, .ok d2 true, .ok d3 true, .ok [] s4],
          w, j, false⟩ :: spec2 :: rest) false buf).events =
        Event.spawn :: Event.setRunning true ::
          Event.send d1.length (d1 ++ buf.drop d1.length) ::
          Event.send d2.length
            (d2 ++ (d1 ++ buf.drop d1.length).drop d2.length) ::
          Event.send d3.length
            (d3 ++ (d2 ++ (d1 ++ buf.drop d1.length).drop d2.length).drop
              d3.length) ::
          Event.setRunning false :: Event.waitProc :: Event.joinDrain ::
          Event.spawn :: tl := by
  have hinner : readLoop [.ok d1 true, .ok d2 true, .ok d3 true, .ok [] s4]
      buf false =
      ([Event.setRunning true,
        Event.send d1.length (d1 ++ buf.drop d1.length),
        Event.send d2.length (d2 ++ (d1 ++ buf.drop d1.length).drop d2.length),
        Event.send d3.length
          (d3 ++ (d2 ++ (d1 ++ buf.drop d1.length).drop d2.length).drop
            d3.length)],
        d3 ++ (d2 ++ (d1 ++ buf.drop d1.length).drop d2.length).drop d3.length,
        ExitKind.eof) := by
    rw [readLoop_ok_send _ _ _ _ h1, readLoop_ok_send _ _ _ _ h2,
      readLoop_ok_send _ _ _ _ h3, readLoop_ok_nil]
    simp
  rw [runServer_exit_cont
    ⟨true, [.ok d1 true, .ok d2 true, .ok d3 true, .ok [] s4], w, j, false⟩
    (spec2 :: rest) false buf rfl (Or.inl (by rw [hinner])) rfl, hinner]
  obtain ⟨tl0, htl⟩ := runServer_spawnOk_head spec2 rest false
    (d3 ++ (d2 ++ (d1 ++ buf.drop d1.length).drop d2.length).drop d3.length)
    hs2
  refine ⟨tl0, ?_⟩
  rw [htl]
  simp

/-- Witness for C3: three one-byte reads, then EOF, then a restart. -/
theorem ingest_three_chunks_restart_witness :
    ([1] : List Nat) ≠ [] ∧
      (∃ tl,
        (runServer [⟨true, [.ok [1] true, .ok [2] true, .ok [3] true,
            .ok [] true], true, true, false⟩,
            ⟨true, [], true, true, false⟩] false [0, 0]).events =
          Event.spawn :: Event.setRunning true ::
            Event.send 1 [1, 0] :: Event.send 1 [2, 0] :: Event.send 1 [3, 0] ::
            Event.setRunning false :: Event.waitProc :: Event.joinDrain ::
            Event.spawn :: tl) := by
  constructor
  · decide
  · have h := ingest_three_chunks_restart [1] [2] [3] true true true
      ⟨true, [], true, true, false⟩ [] [0, 0] (by decide) (by decide)
      (by decide) rfl
    simpa using h

/-- C10: every message sent on the output channel carries a length
strictly greater than 0, and (given the `Read` contract that a read
returns at most the 65088-byte buffer capacity) at most 65088; a
zero-byte read is never forwarded. -/
theorem ingest_chunk_len_bounds (specs : List InstanceSpec) (term : Bool)
    (buf : List Nat)
    (hb : ∀ spec ∈ specs, ∀ d s, ReadEvent.ok d s ∈ spec.reads →
      d.length ≤ 65088) :
    ∀ l bb, Event.send l bb ∈ (runServer specs term buf).events →
      0 < l ∧ l ≤ 65088 := by
  induction specs generalizing term buf with
  | nil =>
    rw [runServer_nil]
    simp
  | cons spec rest ih =>
    have hspec : ∀ d s, ReadEvent.ok d s ∈ spec.reads → d.length ≤ 65088 :=
      hb spec (by simp)
    have hrest : ∀ sp ∈ rest, ∀ d s, ReadEvent.ok d s ∈ sp.reads →
        d.length ≤ 65088 :=
      fun sp hm => hb sp (List.mem_cons_of_mem _ hm)
    intro l bb hm
    cases hs : spec.spawnOk with
    | false =>
      rw [runServer_spawnFail spec rest term buf hs] at hm
      simp at hm
    | true =>
      cases hk : (readLoop spec.reads buf false).2.2 with
      | sendFail =>
        rw [runServer_sendFail spec rest term buf hs hk] at hm
        have hm2 : Event.send l bb ∈ (readLoop spec.reads buf false).1 := by
          simpa using hm
        exact readLoop_send_len spec.reads buf false hspec l bb hm2
      | blocked =>
        rw [runServer_blocked spec rest term buf hs hk] at hm
        have hm2 : Event.send l bb ∈ (readLoop spec.reads buf false).1 := by
          simpa using hm
        exact readLoop_send_len spec.reads buf false hspec l bb hm2
      | eof =>
        cases ht : (term || spec.extTerm) with
        | true =>
          rw [runServer_exit_term spec rest term buf hs (Or.inl hk) ht] at hm
          have hm2 : Event.send l bb ∈ (readLoop spec.reads buf false).1 := by
            simpa using hm
          exact readLoop_send_len spec.reads buf false hspec l bb hm2
        | false =>
          rw [runServer_exit_cont spec rest term buf hs (Or.inl hk) ht] at hm
          have hm2 : Event.send l bb ∈ (readLoop spec.reads buf false).1 ∨
              Event.send l bb ∈
                (runServer rest false (readLoop spec.reads buf false).2.1).events := by
            simpa using hm
          rcases hm2 with hm2 | hm2
          · exact readLoop_send_len spec.reads buf false hspec l bb hm2
          · exact ih false (readLoop spec.reads buf false).2.1 hrest l bb hm2
      | readErr =>
        cases ht : (term || spec.extTerm) with
        | true =>
          rw [runServer_exit_term spec rest term buf hs (Or.inr hk) ht] at hm
          have hm2 : Event.send l bb ∈ (readLoop spec.reads buf false).1 := by
            simpa using hm
          exact readLoop_send_len spec.reads buf false hspec l bb hm2
        | false =>
          rw [runServer_exit_cont spec rest term buf hs (Or.inr hk) ht] at hm
          have hm2 : Event.send l bb ∈ (readLoop spec.reads buf false).1 ∨
              Event.send l bb ∈
                (runServer rest false (readLoop spec.reads buf false).2.1).events := by
            simpa using hm
          rcases hm2 with hm2 | hm2
          · exact readLoop_send_len spec.reads buf false hspec l bb hm2
          · exact ih false (readLoop spec.reads buf false).2.1 hrest l bb hm2

/-- Witness for C10: a two-byte chunk is sent with length 2. -/
theorem ingest_chunk_len_bounds_witness :
    (0 < 2 ∧ 2 ≤ 65088) :=
  ingest_chunk_len_bounds
    [⟨true, [.ok [7, 8] true, .err], true, true, true⟩] false [0, 0, 0]
    (by
      intro sp hsp d s hd
      rw [List.mem_singleton] at hsp
      subst hsp
      simp only [List.mem_cons, List.not_mem_nil, or_false] at hd
      rcases hd with ⟨rfl, -⟩ | hd
      · decide
      · exact ReadEvent.noConfusion hd)
    2 [7, 8, 0] (by decide)


/-- Counterexample to C5 as stated: when `Command::spawn` fails, the
code logs and `panic!`s (lines 117-120) but never stores `true` into
`is_terminated` — here a run whose only instance fails to spawn ends
panicked with the termination flag still `false`, while the claim says
the flag is set. -/
theorem ingest_spawn_fail_cex :
    (ingest_server [⟨false, [], true, true, false⟩]).termFlag = false ∧
      (ingest_server [⟨false, [], true, true, false⟩]).result =
        RunResult.panicked := by
  constructor <;> rfl

/-- C5 (amended): when spawning the subprocess fails, the error is
reported and the whole process aborts via `panic!`; the spawn is never
retried and `ingest_server` never continues past the failed spawn — but
the termination flag is NOT set (it keeps its previous value). -/
theorem ingest_spawn_fail_aborts (spec : InstanceSpec)
    (rest : List InstanceSpec) (term : Bool) (buf : List Nat)
    (hs : spec.spawnOk = false) :
    (runServer (spec :: rest) term buf).result = RunResult.panicked ∧
      (runServer (spec :: rest) term buf).events = [Event.spawnFail] ∧
      (runServer (spec :: rest) term buf).termFlag = term := by
  rw [runServer_spawnFail spec rest term buf hs]
  exact ⟨rfl, rfl, rfl⟩

/-- Witness for the amended C5. -/
theorem ingest_spawn_fail_aborts_witness :
    (runServer [⟨false, [.ok [1] true], true, true, false⟩] false [0]).result =
        RunResult.panicked ∧
      (runServer [⟨false, [.ok [1] true], true, true, false⟩] false
          [0]).events = [Event.spawnFail] ∧
      (runServer [⟨false, [.ok [1] true], true, true, false⟩] false
          [0]).termFlag = false :=
  ingest_spawn_fail_aborts ⟨false, [.ok [1] true], true, true, false⟩ [] false
    [0] rfl

/-- Counterexample to C4 as stated: the `server_is_running` store at
lines 139-142 runs after ANY successful read, before the
`bytes_len > 0` check — here an instance whose only read is the
zero-byte EOF read still stores `true`, while the claim says the flag
becomes true only at the first successful NON-EMPTY read and not at a
zero-byte read. -/
theorem ingest_running_flag_cex :
    Event.setRunning true ∈
      (ingest_server [⟨true, [.ok [] true], true, true, false⟩]).events := by
  decide

/-- C4 (amended): `server_is_running` becomes true at the first
SUCCESSFUL read of each instance — whether or not it read any bytes —
and not at a failed read; it is stored at most once per instance; it is
stored back to false when the instance's read loop ends through EOF or a
read error; on the channel-send-failure exit the store to false is
skipped (line 157 is jumped over by `break 'ingest_iter`). -/
theorem ingest_running_flag_amended (spec : InstanceSpec)
    (rest : List InstanceSpec) (term : Bool) (buf : List Nat)
    (hs : spec.spawnOk = true) :
    (∀ d s r2, spec.reads = ReadEvent.ok d s :: r2 →
      ((readLoop spec.reads buf false).1).head? =
        some (Event.setRunning true)) ∧
      (spec.reads.head? = none ∨ spec.reads.head? = some ReadEvent.err →
        Event.setRunning true ∉ (readLoop spec.reads buf false).1) ∧
      ((readLoop spec.reads buf false).1).count (Event.setRunning true) ≤ 1 ∧
      ((readLoop spec.reads buf false).2.2 = ExitKind.eof ∨
        (readLoop spec.reads buf false).2.2 = ExitKind.readErr →
        ∃ tl, (runServer (spec :: rest) term buf).events =
          Event.spawn :: ((readLoop spec.reads buf false).1 ++
            Event.setRunning false :: tl)) ∧
      ((readLoop spec.reads buf false).2.2 = ExitKind.sendFail →
        Event.setRunning false ∉ (runServer (spec :: rest) term buf).events) := by
  refine ⟨?_, ?_, readLoop_setRunning_once spec.reads buf, ?_, ?_⟩
  · intro d s r2 hr
    rw [hr]
    exact readLoop_head_ok d s r2 buf
  · intro h
    cases hr : spec.reads with
    | nil => rw [readLoop_nil]; simp
    | cons e r =>
      cases e with
      | err => rw [readLoop_err]; simp
      | ok d s =>
        rw [hr] at h
        rcases h with h | h <;> simp at h
  · intro hexit
    cases ht : (term || spec.extTerm) with
    | true =>
      rw [runServer_exit_term spec rest term buf hs hexit ht]
      exact ⟨[Event.waitProc, Event.joinDrain], by simp⟩
    | false =>
      rw [runServer_exit_cont spec rest term buf hs hexit ht]
      refine ⟨Event.waitProc :: Event.joinDrain ::
        (runServer rest false (readLoop spec.reads buf false).2.1).events, ?_⟩
      simp
  · intro hk
    rw [runServer_sendFail spec rest term buf hs hk]
    intro hm
    rcases List.mem_cons.mp hm with h | h
    · exact Event.noConfusion h
    · exact readLoop_no_setRunning_false spec.reads buf false h

/-- Witness for the amended C4: one instance with a one-byte read, then
a read error. -/
theorem ingest_running_flag_amended_witness :
    ((readLoop [ReadEvent.ok [5] true, ReadEvent.err] [0] false).1).head? =
        some (Event.setRunning true) ∧
      ((readLoop [ReadEvent.ok [5] true, ReadEvent.err] [0] false).1).count
        (Event.setRunning true) ≤ 1 :=
  ⟨(ingest_running_flag_amended ⟨true, [.ok [5] true, .err], true, true, false⟩
      [] false [0] rfl).1 [5] true [ReadEvent.err] rfl,
    (ingest_running_flag_amended ⟨true, [.ok [5] true, .err], true, true, false⟩
      [] false [0] rfl).2.2.1⟩

/-- Counterexample to C6 as stated: on the channel-send-failure path the
`break 'ingest_iter` at line 149 jumps past the
`error_reader_thread.join()` at line 163 — here `ingest_server` returns
`Ok` without the stderr drain thread ever being joined, while the claim
says the join happens on every exit path of the read loop, including the
channel-send-failure path. -/
theorem ingest_join_cex :
    (ingest_server [⟨true, [.ok [1] false], true, true, false⟩]).result =
        RunResult.ok ∧
      Event.joinDrain ∉
        (ingest_server [⟨true, [.ok [1] false], true, true, false⟩]).events := by
  decide


/-- `joinedBetween` ignores a prefix containing neither spawns nor
joins. -/
theorem joinedBetween_append_neutral (l m : List Event) (st : Bool)
    (he : ∀ e ∈ l, e ≠ Event.spawn ∧ e ≠ Event.joinDrain) :
    joinedBetween (l ++ m) st = joinedBetween m st := by
  induction l generalizing st with
  | nil => rfl
  | cons e r ih =>
    have he0 := he e (by simp)
    have her : ∀ x ∈ r, x ≠ Event.spawn ∧ x ≠ Event.joinDrain :=
      fun x hx => he x (List.mem_cons_of_mem _ hx)
    cases e with
    | spawn => exact absurd rfl he0.1
    | joinDrain => exact absurd rfl he0.2
    | spawnFail => exact ih st her
    | send len bb => exact ih st her
    | setRunning b => exact ih st her
    | setTerminated => exact ih st her
    | waitProc => exact ih st her

/-- A spawn-free trace satisfies the join discipline in any state. -/
theorem joinedBetween_no_spawn (l : List Event) (st : Bool)
    (he : ∀ e ∈ l, e ≠ Event.spawn) : joinedBetween l st = true := by
  induction l generalizing st with
  | nil => rfl
  | cons e r ih =>
    have he0 := he e (by simp)
    have her : ∀ x ∈ r, x ≠ Event.spawn :=
      fun x hx => he x (List.mem_cons_of_mem _ hx)
    cases e with
    | spawn => exact absurd rfl he0
    | joinDrain => exact ih false her
    | spawnFail => exact ih st her
    | send len bb => exact ih st her
    | setRunning b => exact ih st her
    | setTerminated => exact ih st her
    | waitProc => exact ih st her

/-- C6 (amended): the stderr drain thread of an instance is joined
before any next subprocess is spawned (the trace never spawns twice
without an intervening join), and whenever `ingest_server` returns `Ok`
its trace ends either with the join of the last instance's drain thread
— or, on the channel-send-failure exit only, with the `is_terminated`
store: on that path the `break 'ingest_iter` at line 149 skips the join
at line 163 and the drain thread is never joined. -/
theorem ingest_join_amended (specs : List InstanceSpec) (term : Bool)
    (buf : List Nat) :
    joinedBetween (runServer specs term buf).events false = true ∧
      ((runServer specs term buf).result = RunResult.ok →
        (runServer specs term buf).events.getLast? =
            some Event.setTerminated ∨
          (runServer specs term buf).events.getLast? =
            some Event.joinDrain) := by
  induction specs generalizing term buf with
  | nil =>
    rw [runServer_nil]
    exact ⟨rfl, fun h => RunResult.noConfusion h⟩
  | cons spec rest ih =>
    have hinner : ∀ e ∈ (readLoop spec.reads buf false).1,
        e ≠ Event.spawn ∧ e ≠ Event.joinDrain := by
      intro e hee
      constructor
      · intro heq
        exact readLoop_no_spawn spec.reads buf false (heq ▸ hee)
      · intro heq
        exact readLoop_no_joinDrain spec.reads buf false (heq ▸ hee)
    have hinner1 : ∀ e ∈ (readLoop spec.reads buf false).1,
        e ≠ Event.spawn := fun e hee => (hinner e hee).1
    cases hs : spec.spawnOk with
    | false =>
      rw [runServer_spawnFail spec rest term buf hs]
      exact ⟨rfl, fun h => RunResult.noConfusion h⟩
    | true =>
      cases hk : (readLoop spec.reads buf false).2.2 with
      | sendFail =>
        rw [runServer_sendFail spec rest term buf hs hk]
        constructor
        · exact joinedBetween_no_spawn _ true hinner1
        · intro _
          left
          have hlast := readLoop_sendFail_getLast spec.reads buf false hk
          have hne : (readLoop spec.reads buf false).1 ≠ [] := by
            intro h0
            rw [h0] at hlast
            simp at hlast
          exact (getLast?_append_right [Event.spawn] _ hne).trans hlast
      | blocked =>
        rw [runServer_blocked spec rest term buf hs hk]
        exact ⟨joinedBetween_no_spawn _ true hinner1,
          fun h => RunResult.noConfusion h⟩
      | eof =>
        cases ht : (term || spec.extTerm) with
        | true =>
          rw [runServer_exit_term spec rest term buf hs (Or.inl hk) ht]
          constructor
          · show joinedBetween ((readLoop spec.reads buf false).1 ++
              [Event.setRunning false, Event.waitProc, Event.joinDrain])
                true = true
            rw [joinedBetween_append_neutral _ _ _ hinner]
            rfl
          · intro _
            right
            have h3 : ([Event.setRunning false, Event.waitProc,
                Event.joinDrain] : List Event).getLast? =
                some Event.joinDrain := rfl
            calc (Event.spawn :: ((readLoop spec.reads buf false).1 ++
                  [Event.setRunning false, Event.waitProc,
                    Event.joinDrain])).getLast?
                = ([Event.spawn] ++ ((readLoop spec.reads buf false).1 ++
                    [Event.setRunning false, Event.waitProc,
                      Event.joinDrain])).getLast? := rfl
              _ = ((readLoop spec.reads buf false).1 ++
                    [Event.setRunning false, Event.waitProc,
                      Event.joinDrain]).getLast? :=
                  getLast?_append_right _ _ (by simp)
              _ = some Event.joinDrain :=
                  (getLast?_append_right _ _ (by simp)).trans rfl
        | false =>
          rw [runServer_exit_cont spec rest term buf hs (Or.inl hk) ht]
          have hih := ih false (readLoop spec.reads buf false).2.1
          constructor
          · show joinedBetween ((Event.spawn ::
              ((readLoop spec.reads buf false).1 ++
                [Event.setRunning false, Event.waitProc, Event.joinDrain])) ++
              (runServer rest false
                (readLoop spec.reads buf false).2.1).events) false = true
            rw [List.cons_append]
            show joinedBetween (((readLoop spec.reads buf false).1 ++
              [Event.setRunning false, Event.waitProc, Event.joinDrain]) ++
              (runServer rest false
                (readLoop spec.reads buf false).2.1).events) true = true
            rw [List.append_assoc, joinedBetween_append_neutral _ _ _ hinner]
            exact hih.1
          · intro hres
            have hres2 := hih.2 hres
            have hne : (runServer rest false
                (readLoop spec.reads buf false).2.1).events ≠ [] := by
              intro h0
              rcases hres2 with h2 | h2 <;> rw [h0] at h2 <;> simp at h2
            rcases hres2 with h2 | h2
            · left
              exact (getLast?_append_right _ _ hne).trans h2
            · right
              exact (getLast?_append_right _ _ hne).trans h2
      | readErr =>
        cases ht : (term || spec.extTerm) with
        | true =>
          rw [runServer_exit_term spec rest term buf hs (Or.inr hk) ht]
          constructor
          · show joinedBetween ((readLoop spec.reads buf false).1 ++
              [Event.setRunning false, Event.waitProc, Event.joinDrain])
                true = true
            rw [joinedBetween_append_neutral _ _ _ hinner]
            rfl
          · intro _
            right
            calc (Event.spawn :: ((readLoop spec.reads buf false).1 ++
                  [Event.setRunning false, Event.waitProc,
                    Event.joinDrain])).getLast?
                = ([Event.spawn] ++ ((readLoop spec.reads buf false).1 ++
                    [Event.setRunning false, Event.waitProc,
                      Event.joinDrain])).getLast? := rfl
              _ = ((readLoop spec.reads buf false).1 ++
                    [Event.setRunning false, Event.waitProc,
                      Event.joinDrain]).getLast? :=
                  getLast?_append_right _ _ (by simp)
              _ = some Event.joinDrain :=
                  (getLast?_append_right _ _ (by simp)).trans rfl
        | false =>
          rw [runServer_exit_cont spec rest term buf hs (Or.inr hk) ht]
          have hih := ih false (readLoop spec.reads buf false).2.1
          constructor
          · show joinedBetween ((Event.spawn ::
              ((readLoop spec.reads buf false).1 ++
                [Event.setRunning false, Event.waitProc, Event.joinDrain])) ++
              (runServer rest false
                (readLoop spec.reads buf false).2.1).events) false = true
            rw [List.cons_append]
            show joinedBetween (((readLoop spec.reads buf false).1 ++
              [Event.setRunning false, Event.waitProc, Event.joinDrain]) ++
              (runServer rest false
                (readLoop spec.reads buf false).2.1).events) true = true
            rw [List.append_assoc, joinedBetween_append_neutral _ _ _ hinner]
            exact hih.1
          · intro hres
            have hres2 := hih.2 hres
            have hne : (runServer rest false
                (readLoop spec.reads buf false).2.1).events ≠ [] := by
              intro h0
              rcases hres2 with h2 | h2 <;> rw [h0] at h2 <;> simp at h2
            rcases hres2 with h2 | h2
            · left
              exact (getLast?_append_right _ _ hne).trans h2
            · right
              exact (getLast?_append_right _ _ hne).trans h2

/-- Witness for the amended C6: a clean-EOF instance with a termination
request; the trace respects the join discipline and ends with the
join. -/
theorem ingest_join_amended_witness :
    joinedBetween (runServer [⟨true, [.ok [] true], true, true, true⟩] false
        [0]).events false = true ∧
      ((runServer [⟨true, [.ok [] true], true, true, true⟩] false
          [0]).events.getLast? = some Event.setTerminated ∨
        (runServer [⟨true, [.ok [] true], true, true, true⟩] false
          [0]).events.getLast? = some Event.joinDrain) :=
  ⟨(ingest_join_amended [⟨true, [.ok [] true], true, true, true⟩] false [0]).1,
    (ingest_join_amended [⟨true, [.ok [] true], true, true, true⟩] false
      [0]).2 (by decide)⟩


/-- C7: with the overlay disabled (`add_logo` false) the built
filter-graph string contains no overlay stage — it is exactly the video
stage, the `[vout1]` pad and the audio chain; with the overlay enabled
and an existing image file, the filter-graph string is the video stage,
the overlay chain ending in exactly one compositing clause
(`[v][l]{logo_filter}:shortest=1`), the `[vout1]` pad, then the audio
chain — so the single compositing clause sits directly before the final
video output pad. -/
theorem filter_overlay_stage (is_file : String → Bool) (c : GlobalConfig) :
    (c.processing.add_logo = false →
      overlay is_file c = "" ∧
      buildFilter is_file c = videoStage c ++ "[vout1]" ++ audio_filter c) ∧
    (c.processing.add_logo = true → is_file c.processing.logo = true →
      buildFilter is_file c =
        videoStage c ++
          ("[v];movie=" ++ c.processing.logo ++
            ",loop=loop=-1:size=1:start=0,format=rgba,colorchannelmixer=aa=" ++
            c.processing.logo_opacity ++ "[l];") ++
          compositingClause c ++ "[vout1]" ++ audio_filter c) := by
  constructor
  · intro h
    constructor
    · simp [overlay, h]
    · simp [buildFilter, overlay, h]
  · intro h h2
    simp [buildFilter, overlay, compositingClause, h, h2, String.append_assoc]
    rfl

/-- Witness for C7: both branches at a concrete configuration. -/
theorem filter_overlay_stage_witness :
    (overlay (fun _ => true) ⟨{ sampleProc with add_logo := false }⟩ = "" ∧
      buildFilter (fun _ => true) ⟨{ sampleProc with add_logo := false }⟩ =
        videoStage ⟨{ sampleProc with add_logo := false }⟩ ++ "[vout1]" ++
          audio_filter ⟨{ sampleProc with add_logo := false }⟩) ∧
    buildFilter (fun _ => true) ⟨sampleProc⟩ =
      videoStage ⟨sampleProc⟩ ++
        ("[v];movie=" ++ sampleProc.logo ++
          ",loop=loop=-1:size=1:start=0,format=rgba,colorchannelmixer=aa=" ++
          sampleProc.logo_opacity ++ "[l];") ++
        compositingClause ⟨sampleProc⟩ ++ "[vout1]" ++
        audio_filter ⟨sampleProc⟩ :=
  ⟨(filter_overlay_stage (fun _ => true)
      ⟨{ sampleProc with add_logo := false }⟩).1 rfl,
    (filter_overlay_stage (fun _ => true) ⟨sampleProc⟩).2 rfl rfl⟩

/-- C8: the audio filter string contains the volume clause exactly when
the configured volume differs from 1 under exact equality — for any
volume other than 1 the string is the fade/loudnorm chain, the volume
clause, then the `[aout1]` pad; for volume exactly 1 the volume clause
is omitted. -/
theorem audio_filter_volume (c : GlobalConfig) :
    (c.processing.volume ≠ 1 →
      audio_filter c =
        audioPre c ++ ",volume=" ++ volumeStr c.processing.volume ++
          "[aout1]") ∧
    (c.processing.volume = 1 →
      audio_filter c = audioPre c ++ "[aout1]") := by
  constructor
  · intro h
    by_cases hl : c.processing.add_loudnorm <;>
      simp [audio_filter, audioPre, h, hl, String.append_assoc]
  · intro h
    by_cases hl : c.processing.add_loudnorm <;>
      simp [audio_filter, audioPre, h, hl, String.append_assoc]

/-- Witness for C8: volume 2 produces the clause, volume 1 omits it. -/
theorem audio_filter_volume_witness :
    audio_filter ⟨{ sampleProc with volume := 2 }⟩ =
        audioPre ⟨{ sampleProc with volume := 2 }⟩ ++ ",volume=" ++
          volumeStr 2 ++ "[aout1]" ∧
      audio_filter ⟨sampleProc⟩ = audioPre ⟨sampleProc⟩ ++ "[aout1]" :=
  ⟨(audio_filter_volume ⟨{ sampleProc with volume := 2 }⟩).1 (by norm_num),
    (audio_filter_volume ⟨sampleProc⟩).2 rfl⟩

/-- C9: with `add_logo` enabled but a logo path that is not an existing
file, `overlay` returns the empty string, and the built filter graph is
identical to the one with the overlay disabled — no overlay stage. -/
theorem overlay_missing_logo (is_file : String → Bool) (c : GlobalConfig)
    (h : c.processing.add_logo = true)
    (h2 : is_file c.processing.logo = false) :
    overlay is_file c = "" ∧
      buildFilter is_file c =
        videoStage c ++ "[vout1]" ++ audio_filter c ∧
      buildFilter is_file c =
        buildFilter is_file
          ⟨{ c.processing with add_logo := false }⟩ := by
  refine ⟨?_, ?_, ?_⟩
  · simp [overlay, h, h2]
  · simp [buildFilter, overlay, h, h2]
  · simp [buildFilter, overlay, videoStage, audio_filter, h, h2]

/-- Witness for C9: a concrete enabled configuration whose logo file is
missing. -/
theorem overlay_missing_logo_witness :
    overlay (fun _ => false) ⟨sampleProc⟩ = "" ∧
      buildFilter (fun _ => false) ⟨sampleProc⟩ =
        videoStage ⟨sampleProc⟩ ++ "[vout1]" ++ audio_filter ⟨sampleProc⟩ ∧
      buildFilter (fun _ => false) ⟨sampleProc⟩ =
        buildFilter (fun _ => false)
          ⟨{ sampleProc with add_logo := false }⟩ :=
  overlay_missing_logo (fun _ => false) ⟨sampleProc⟩ rfl rfl

end Ingest
